import Mathlib

/-!
Shallow embedding of the single-malt blog engine (src/main.go) and proofs
about its slug normalization, upsert/update/delete/get/list handlers and
the shared-secret authorization check.

Strings are modelled as Lean `String` (lists of characters); machine time
is modelled as `Int`; the SQLite table `posts` is modelled as a
`List Post`; a possible query/exec failure of the database driver is
modelled by an explicit `dbFail : Bool` argument; Go's
`r.Header.Get` / `os.Getenv` (which return "" when absent) are modelled on
`Option String` with an explicit default.
-/

namespace SingleMalt

/-- ASCII lower-casing of one character, as Go's `strings.ToLower` acts on
the ASCII range (codepoints 65-90 map to 97-122, everything else in our
claims' alphabet is fixed). -/
def toLowerChar (c : Char) : Char :=
  if 65 ≤ c.toNat && c.toNat ≤ 90 then Char.ofNat (c.toNat + 32) else c

/-- `strings.ToLower` over a rune sequence. -/
def goToLower (l : List Char) : List Char := l.map toLowerChar

/-- Membership in the character class `[a-z0-9 ]` of the regexp
`[^a-z0-9 ]+` in handlePublish (src/main.go line 108). -/
def isSlugChar (c : Char) : Bool :=
  (97 ≤ c.toNat && c.toNat ≤ 122) || (48 ≤ c.toNat && c.toNat ≤ 57) || c.toNat == 32

/-- `reg.ReplaceAllString(s, "")` for `reg = [^a-z0-9 ]+`: deletes every
character outside `[a-z0-9 ]` (src/main.go lines 108-109). -/
def stripDisallowed (l : List Char) : List Char := l.filter isSlugChar

/-- `strings.ReplaceAll(s, " ", "-")`: each space becomes a hyphen
(src/main.go line 111). Codepoint 32 is the space character. -/
def spacesToHyphens (l : List Char) : List Char :=
  l.map (fun c => if c.toNat == 32 then '-' else c)

/-- Slug auto-generation of handlePublish (src/main.go lines 104-112):
lower-case, delete characters outside `[a-z0-9 ]`, then replace each
space with a hyphen. -/
def slugify (title : String) : String :=
  ⟨spacesToHyphens (stripDisallowed (goToLower title.data))⟩

/-- The older slug variant (second source file, lines 337-340):
`strings.ToLower(strings.ReplaceAll(p.Title, " ", "-"))` - replace spaces
by hyphens first, then lower-case; no character stripping. -/
def slugifyOld (title : String) : String :=
  ⟨goToLower (spacesToHyphens title.data)⟩

/-- Modelled from the spec (section 4.2 wording, not present in the code):
replace each maximal run of consecutive spaces by a single hyphen. -/
def collapseRuns : List Char → List Char
  | [] => []
  | [c] => if c.toNat == 32 then ['-'] else [c]
  | c :: d :: cs =>
    if c.toNat == 32 then
      if d.toNat == 32 then collapseRuns (d :: cs)
      else '-' :: collapseRuns (d :: cs)
    else c :: collapseRuns (d :: cs)

/-- Modelled from the spec: the spec's slug policy read literally -
lower-case, strip characters outside `[a-z0-9 ]`, then collapse each run
of spaces into one hyphen. -/
def specSlug (title : String) : String :=
  ⟨collapseRuns (stripDisallowed (goToLower title.data))⟩

/-- Per-character space-to-hyphen replacement written as plain recursion;
used to state the amended slug policy (each space yields one hyphen). -/
def hyphenateSpaces : List Char → List Char
  | [] => []
  | c :: cs => (if c.toNat == 32 then '-' else c) :: hyphenateSpaces cs

/-- Amended slug policy: lower-case, strip characters outside
`[a-z0-9 ]`, then replace every space (individually) by a hyphen. -/
def specSlugAmended (title : String) : String :=
  ⟨hyphenateSpaces (stripDisallowed (goToLower title.data))⟩

/-- `noDoubleSpace l` holds when `l` has no two consecutive spaces
("single spaces"). -/
def noDoubleSpace : List Char → Bool
  | [] => true
  | [_] => true
  | c :: d :: cs => !(c.toNat == 32 && d.toNat == 32) && noDoubleSpace (d :: cs)

/-- The `Post` struct / `posts` table row (src/main.go lines 17-23). -/
structure Post where
  slug : String
  title : String
  description : String
  content : String
  published_at : Int
deriving DecidableEq

/-- A list-view record: the `content` column is not selected by
handleListPosts (src/main.go line 55), so the summary type has no content
field. -/
structure Summary where
  slug : String
  title : String
  description : String
  published_at : Int
deriving DecidableEq

/-- Projection of a row to its list-view summary (content elided). -/
def summarize (p : Post) : Summary :=
  ⟨p.slug, p.title, p.description, p.published_at⟩

/-- An HTTP response: `err code msg` models `http.Error(w, msg, code)`,
the `ok*` constructors model the JSON 200 responses. -/
inductive HResp where
  | err : Nat → String → HResp
  | okPost : Post → HResp
  | okList : List Summary → HResp
  | okMsg : List (String × String) → HResp
deriving DecidableEq

/-- Go's `r.Header.Get("X-MALT-KEY")`: the empty string when the header
is absent. -/
def headerGet (h : Option String) : String := h.getD ""

/-- Go's `os.Getenv("MALT_SECRET")`: the empty string when the variable
is unset. -/
def getEnv (v : Option String) : String := v.getD ""

/-- The authorization comparison of every mutating handler
(src/main.go lines 92, 136, 163): plain string equality of the header
value against the environment secret. -/
def authOk (key secret : Option String) : Bool := headerGet key == getEnv secret

/-- The ON CONFLICT update part of the upsert (src/main.go lines 119-122):
title, content and description are overwritten; slug and published_at of
the existing row are kept. -/
def overwriteWith (p r : Post) : Post :=
  { r with title := p.title, description := p.description, content := p.content }

/-- `INSERT INTO posts ... ON CONFLICT(slug) DO UPDATE SET title, content,
description` (src/main.go lines 116-123): append a new row when the slug
is absent, otherwise overwrite title/description/content of the row with
that slug. -/
def upsert (store : List Post) (p : Post) : List Post :=
  if store.any (fun r => r.slug == p.slug) then
    store.map (fun r => if r.slug == p.slug then overwriteWith p r else r)
  else
    store ++ [p]

/-- POST /api/publish (src/main.go lines 90-131). `body = none` models a
JSON decode failure; `now` is the value of `time.Now()`; `dbFail` models
a failing `db.Exec`. -/
def handlePublish (key secret : Option String) (body : Option Post) (now : Int)
    (dbFail : Bool) (store : List Post) : HResp × List Post :=
  if !(authOk key secret) then (.err 401 "Go away", store)
  else match body with
    | none => (.err 400 "Bad JSON", store)
    | some p0 =>
      let p1 := if p0.slug == "" then { p0 with slug := slugify p0.title } else p0
      let p := { p1 with published_at := now }
      if dbFail then (.err 500 "Failed to save", store)
      else (.okMsg [("status", "published"), ("link", "/post/" ++ p.slug)], upsert store p)

/-- The SET clause of the UPDATE statement (src/main.go lines 179-183)
applied to one row: rows with a matching slug get the new
title/description/content, all other rows are untouched. -/
def updateRow (p : Post) (slug : String) (r : Post) : Post :=
  if r.slug == slug then
    { r with title := p.title, description := p.description, content := p.content }
  else r

/-- PUT /api/posts/slug (src/main.go lines 161-197): auth check, JSON
decode, run the UPDATE, then 404 when zero rows were affected. -/
def handleUpdatePost (key secret : Option String) (slug : String) (body : Option Post)
    (dbFail : Bool) (store : List Post) : HResp × List Post :=
  if !(authOk key secret) then (.err 401 "Go away", store)
  else match body with
    | none => (.err 400 "Bad JSON", store)
    | some p =>
      if dbFail then (.err 500 "Database error", store)
      else
        ((if store.countP (fun r => r.slug == slug) == 0 then .err 404 "Post not found"
          else .okMsg [("status", "updated"), ("slug", slug)]),
         store.map (updateRow p slug))

/-- DELETE /api/posts/slug (src/main.go lines 134-158): auth check, run
the DELETE, then 404 when zero rows were affected. -/
def handleDeletePost (key secret : Option String) (slug : String)
    (dbFail : Bool) (store : List Post) : HResp × List Post :=
  if !(authOk key secret) then (.err 401 "Go away", store)
  else if dbFail then (.err 500 "Database error", store)
  else
    ((if store.countP (fun r => r.slug == slug) == 0 then .err 404 "Post not found"
      else .okMsg [("status", "deleted"), ("slug", slug)]),
     store.filter (fun r => !(r.slug == slug)))

/-- GET /api/posts/slug (src/main.go lines 76-87). `QueryRow` defers any
query error to `Scan`, and the handler maps *every* `Scan` error - a
missing row as well as a genuine query failure - to the same
`http.Error(w, "Post not found", 404)`. -/
def handleGetPost (slug : String) (dbFail : Bool) (store : List Post) : HResp :=
  if dbFail then .err 404 "Post not found"
  else match store.find? (fun r => r.slug == slug) with
    | none => .err 404 "Post not found"
    | some p => .okPost p

/-- The ORDER BY published_at DESC relation (src/main.go line 55). -/
def publishedDesc (a b : Post) : Prop := b.published_at ≤ a.published_at

instance : DecidableRel publishedDesc :=
  fun a b => inferInstanceAs (Decidable (b.published_at ≤ a.published_at))

instance : IsTotal Post publishedDesc :=
  ⟨fun a b => le_total b.published_at a.published_at⟩

instance : IsTrans Post publishedDesc :=
  ⟨fun _ _ _ hab hbc => le_trans hbc hab⟩

/-- `SELECT slug, title, description, published_at FROM posts ORDER BY
published_at DESC` (src/main.go line 55): rows sorted newest-first, the
content column elided. -/
def listSummaries (store : List Post) : List Summary :=
  (List.insertionSort publishedDesc store).map summarize

/-- GET /api/posts (src/main.go lines 54-73). `dbFail` models a failing
`db.Query`. -/
def handleListPosts (dbFail : Bool) (store : List Post) : HResp :=
  if dbFail then .err 500 "Database error"
  else .okList (listSummaries store)

/-! ### Character-level helper lemmas for the slug normalizer -/

theorem toLowerChar_fix (c : Char) (h : ¬(65 ≤ c.toNat ∧ c.toNat ≤ 90)) :
    toLowerChar c = c := by
  show (if 65 ≤ c.toNat && c.toNat ≤ 90 then Char.ofNat (c.toNat + 32) else c) = c
  rw [if_neg]
  simpa using h

theorem goToLower_fix (l : List Char) (h : ∀ c ∈ l, ¬(65 ≤ c.toNat ∧ c.toNat ≤ 90)) :
    goToLower l = l := by
  show l.map toLowerChar = l
  rw [List.map_congr_left (fun c hc => toLowerChar_fix c (h c hc))]
  exact List.map_id' l

theorem stripDisallowed_fix (l : List Char) (h : ∀ c ∈ l, isSlugChar c = true) :
    stripDisallowed l = l :=
  List.filter_eq_self.mpr h

theorem spacesToHyphens_fix (l : List Char) (h : ∀ c ∈ l, c.toNat ≠ 32) :
    spacesToHyphens l = l := by
  show l.map _ = l
  rw [List.map_congr_left (fun c hc => ?_)]
  · exact List.map_id' l
  · rw [if_neg]
    simpa using h c hc

theorem isSlugChar_iff (c : Char) :
    isSlugChar c = true ↔
      (97 ≤ c.toNat ∧ c.toNat ≤ 122) ∨ (48 ≤ c.toNat ∧ c.toNat ≤ 57) ∨ c.toNat = 32 := by
  simp [isSlugChar]
  tauto

/-- Every character of a generated slug is a lower-case letter, a digit,
or the hyphen produced from a space. -/
theorem mem_slug_chars (t : String) (c : Char) (hc : c ∈ (slugify t).data) :
    c = '-' ∨ (97 ≤ c.toNat ∧ c.toNat ≤ 122) ∨ (48 ≤ c.toNat ∧ c.toNat ≤ 57) := by
  have hc' : c ∈ spacesToHyphens (stripDisallowed (goToLower t.data)) := hc
  rw [spacesToHyphens, List.mem_map] at hc'
  obtain ⟨b, hb, rfl⟩ := hc'
  rw [stripDisallowed, List.mem_filter] at hb
  obtain ⟨-, hsb⟩ := hb
  by_cases h32 : b.toNat = 32
  · left
    simp [h32]
  · right
    rw [if_neg (by simpa using h32)]
    rcases (isSlugChar_iff b).mp hsb with h | h | h
    · exact Or.inl h
    · exact Or.inr h
    · exact absurd h h32

/-- A list of lower-case letters and digits is a fixed point of the
whole normalization pipeline. -/
theorem slugCore_fix (l : List Char)
    (hl : ∀ c ∈ l, (97 ≤ c.toNat ∧ c.toNat ≤ 122) ∨ (48 ≤ c.toNat ∧ c.toNat ≤ 57)) :
    spacesToHyphens (stripDisallowed (goToLower l)) = l := by
  rw [goToLower_fix l (fun c hc => by have := hl c hc; omega)]
  rw [stripDisallowed_fix l (fun c hc => (isSlugChar_iff c).mpr (by have := hl c hc; omega))]
  exact spacesToHyphens_fix l (fun c hc => by have := hl c hc; omega)

/-- C1: the slug normalizer is NOT idempotent as claimed: the title
`"a b"` normalizes to `"a-b"`, but normalizing `"a-b"` again deletes the
hyphen (it is outside `[a-z0-9 ]`) and yields `"ab"`. -/
theorem slugify_not_idempotent :
    slugify (slugify "a b") ≠ slugify "a b"
      ∧ slugify "a b" = "a-b" ∧ slugify (slugify "a b") = "ab" := by
  decide

/-- C1 (amended): the normalizer is idempotent exactly on the titles
whose normalized slug contains no hyphen; for such titles re-normalizing
the output returns it unchanged. -/
theorem slugify_idempotent_on_hyphenless (t : String)
    (h : '-' ∉ (slugify t).data) :
    slugify (slugify t) = slugify t := by
  have key : ∀ c ∈ (slugify t).data,
      (97 ≤ c.toNat ∧ c.toNat ≤ 122) ∨ (48 ≤ c.toNat ∧ c.toNat ≤ 57) := by
    intro c hc
    rcases mem_slug_chars t c hc with rfl | h2
    · exact absurd hc h
    · exact h2
  calc slugify (slugify t)
      = ⟨spacesToHyphens (stripDisallowed (goToLower (slugify t).data))⟩ := rfl
    _ = ⟨(slugify t).data⟩ := by rw [slugCore_fix _ key]
    _ = slugify t := rfl

/-- Witness for the amended C1 at the concrete title "hello". -/
theorem slugify_idempotent_on_hyphenless_witness :
    slugify (slugify "hello") = slugify "hello" :=
  slugify_idempotent_on_hyphenless "hello" (by decide)

theorem hyphenateSpaces_eq (l : List Char) : hyphenateSpaces l = spacesToHyphens l := by
  induction l with
  | nil => rfl
  | cons c cs ih => simp [hyphenateSpaces, spacesToHyphens] at ih ⊢; exact ih

/-- C2: the normalizer does NOT collapse runs of spaces into a single
hyphen: `strings.ReplaceAll` turns each space into its own hyphen, so
`"a  b"` (two spaces) yields `"a--b"`, not the `"a-b"` predicted by the
spec's run-collapsing policy (`specSlug`). -/
theorem slugify_space_runs_cex :
    slugify "a  b" = "a--b" ∧ specSlug "a  b" = "a-b"
      ∧ slugify "a  b" ≠ specSlug "a  b" := by
  decide

/-- C2 (amended): the normalizer lower-cases the title, strips every
character outside `[a-z0-9 ]`, and then replaces every space
individually with a hyphen (a run of n spaces yields n hyphens); the
spec's example title still maps to "hello-world-2024". -/
theorem slugify_per_space_hyphenation :
    (∀ t : String, slugify t = specSlugAmended t)
      ∧ slugify "Hello, World! 2024" = "hello-world-2024" :=
  ⟨fun t => by rw [slugify, specSlugAmended, hyphenateSpaces_eq], by decide⟩

/-- Witness for the amended C2 at the concrete title "a b". -/
theorem slugify_per_space_hyphenation_witness :
    slugify "a b" = specSlugAmended "a b" :=
  slugify_per_space_hyphenation.1 "a b"

/-- C9: the two slug variants disagree on some title with punctuation
(witness: "hello, world"), and agree on every title made only of
lower-case letters, digits and single spaces. -/
theorem slug_variants_diverge_and_agree :
    (∃ t : String, ',' ∈ t.data ∧ slugifyOld t ≠ slugify t)
      ∧ ∀ t : String, (∀ c ∈ t.data, isSlugChar c = true) →
          noDoubleSpace t.data = true → slugifyOld t = slugify t := by
  constructor
  · exact ⟨"hello, world", by decide, by decide⟩
  · intro t hall _
    have h1 : goToLower t.data = t.data :=
      goToLower_fix _ (fun c hc => by have := (isSlugChar_iff c).mp (hall c hc); omega)
    have h2 : stripDisallowed t.data = t.data := stripDisallowed_fix _ hall
    have h3 : goToLower (spacesToHyphens t.data) = spacesToHyphens t.data := by
      apply goToLower_fix
      intro c hc
      rw [spacesToHyphens, List.mem_map] at hc
      obtain ⟨b, hb, rfl⟩ := hc
      by_cases h32 : b.toNat = 32
      · rw [if_pos (by simpa using h32)]
        decide
      · rw [if_neg (by simpa using h32)]
        have := (isSlugChar_iff b).mp (hall b hb)
        omega
    show (⟨goToLower (spacesToHyphens t.data)⟩ : String)
        = ⟨spacesToHyphens (stripDisallowed (goToLower t.data))⟩
    rw [h3, h1, h2]

/-- Witness for the agreement half of C9 at the concrete title "ab 12". -/
theorem slug_variants_witness : slugifyOld "ab 12" = slugify "ab 12" :=
  slug_variants_diverge_and_agree.2 "ab 12" (by decide) (by decide)

/-! ### Store-level claims -/

/-- C3: for an existing slug the upsert keeps the store's size, produces
a row with the old slug and old published_at but the new
title/description/content, and keeps every row with a different slug;
for an absent slug it appends the new row. -/
theorem upsert_insert_or_overwrite (store : List Post) (p r : Post) :
    (r ∈ store → r.slug = p.slug →
      (upsert store p).length = store.length
      ∧ (∃ q ∈ upsert store p, q.slug = r.slug ∧ q.published_at = r.published_at
          ∧ q.title = p.title ∧ q.description = p.description ∧ q.content = p.content)
      ∧ ∀ q ∈ store, q.slug ≠ p.slug → q ∈ upsert store p)
    ∧ ((∀ q ∈ store, q.slug ≠ p.slug) → upsert store p = store ++ [p]) := by
  constructor
  · intro hr hslug
    have hany : store.any (fun q => q.slug == p.slug) = true :=
      List.any_eq_true.mpr ⟨r, hr, by simp [hslug]⟩
    have hup : upsert store p
        = store.map (fun q => if q.slug == p.slug then overwriteWith p q else q) := by
      simp [upsert, hany]
    refine ⟨by rw [hup, List.length_map], ?_, ?_⟩
    · refine ⟨overwriteWith p r, ?_, rfl, rfl, rfl, rfl, rfl⟩
      have he : overwriteWith p r
          = (fun q => if q.slug == p.slug then overwriteWith p q else q) r := by
        simp [hslug]
      rw [hup, he]
      exact List.mem_map_of_mem _ hr
    · intro q hq hqslug
      have he : q = (fun q' => if q'.slug == p.slug then overwriteWith p q' else q') q := by
        simp [beq_eq_false_iff_ne.mpr hqslug]
      rw [hup]
      exact he ▸ List.mem_map_of_mem _ hq
  · intro hall
    have hany : store.any (fun q => q.slug == p.slug) = false := by
      rw [List.any_eq_false]
      intro q hq
      simp [beq_eq_false_iff_ne.mpr (hall q hq)]
    simp [upsert, hany]

/-- Witness for C3: overwriting keeps timestamp 3 and takes the new
fields; an absent slug appends. -/
theorem upsert_insert_or_overwrite_witness :
    (∃ q ∈ upsert [⟨"s", "t1", "d1", "c1", 3⟩] (⟨"s", "t2", "d2", "c2", 9⟩ : Post),
      q.slug = "s" ∧ q.published_at = 3
        ∧ q.title = "t2" ∧ q.description = "d2" ∧ q.content = "c2")
    ∧ upsert [⟨"s", "t1", "d1", "c1", 3⟩] (⟨"z", "t", "d", "c", 9⟩ : Post)
        = [⟨"s", "t1", "d1", "c1", 3⟩] ++ [⟨"z", "t", "d", "c", 9⟩] :=
  ⟨(upsert_insert_or_overwrite [⟨"s", "t1", "d1", "c1", 3⟩] ⟨"s", "t2", "d2", "c2", 9⟩
      ⟨"s", "t1", "d1", "c1", 3⟩).1 (by decide) rfl |>.2.1,
   (upsert_insert_or_overwrite [⟨"s", "t1", "d1", "c1", 3⟩] ⟨"z", "t", "d", "c", 9⟩
      ⟨"s", "t1", "d1", "c1", 3⟩).2 (by decide)⟩

/-- C4 counterexample: a query failure and an absent row produce the
very same 404 "Post not found" response, so the two failure kinds are
not distinguishable in the response. -/
theorem getPost_failure_indistinguishable :
    handleGetPost "a" true [] = handleGetPost "a" false []
      ∧ handleGetPost "a" true [] = .err 404 "Post not found" :=
  ⟨rfl, rfl⟩

/-- C4 (amended): GetBySlug returns 404 "Post not found" when no row
matches, and the same 404 "Post not found" when the query fails; a
matching row is returned with 200. -/
theorem getPost_notfound_behavior (slug : String) (store : List Post) :
    handleGetPost slug true store = .err 404 "Post not found"
    ∧ (store.find? (fun r => r.slug == slug) = none →
        handleGetPost slug false store = .err 404 "Post not found")
    ∧ ∀ p, store.find? (fun r => r.slug == slug) = some p →
        handleGetPost slug false store = .okPost p := by
  refine ⟨rfl, ?_, ?_⟩
  · intro h
    simp [handleGetPost, h]
  · intro p h
    simp [handleGetPost, h]

/-- Witness for the amended C4 on an empty store and on a one-row store. -/
theorem getPost_notfound_behavior_witness :
    handleGetPost "x" false [] = .err 404 "Post not found"
    ∧ handleGetPost "p" false [⟨"p", "t", "d", "c", 0⟩]
        = .okPost ⟨"p", "t", "d", "c", 0⟩ :=
  ⟨(getPost_notfound_behavior "x" []).2.1 rfl,
   (getPost_notfound_behavior "p" [⟨"p", "t", "d", "c", 0⟩]).2.2 _ (by decide)⟩

/-- C5: a mutating request whose header does not match the secret gets
the 401 response and leaves the store exactly as it was, for all three
mutating handlers. -/
theorem mutating_requires_auth (key secret : Option String) (body : Option Post)
    (now : Int) (dbFail : Bool) (slug : String) (store : List Post)
    (h : headerGet key ≠ getEnv secret) :
    handlePublish key secret body now dbFail store = (.err 401 "Go away", store)
    ∧ handleDeletePost key secret slug dbFail store = (.err 401 "Go away", store)
    ∧ handleUpdatePost key secret slug body dbFail store = (.err 401 "Go away", store) := by
  have hA : authOk key secret = false := beq_eq_false_iff_ne.mpr h
  refine ⟨?_, ?_, ?_⟩ <;> simp [handlePublish, handleDeletePost, handleUpdatePost, hA]

/-- Witness for C5 with a wrong key against a one-row store. -/
theorem mutating_requires_auth_witness :
    handlePublish (some "bad") (some "good") (some ⟨"s", "t", "d", "c", 0⟩) 7 false
        [⟨"p", "t", "d", "c", 0⟩]
      = (.err 401 "Go away", [⟨"p", "t", "d", "c", 0⟩]) :=
  (mutating_requires_auth (some "bad") (some "good") (some ⟨"s", "t", "d", "c", 0⟩) 7 false
    "s" [⟨"p", "t", "d", "c", 0⟩] (by decide)).1

/-- C6: updating a slug that matches no row reports 404 (zero rows
affected), inserts nothing and leaves the store unchanged; a failing
UPDATE reports 500 instead, a distinct response. -/
theorem update_absent_slug_notfound (key secret : Option String) (slug : String)
    (p : Post) (store : List Post)
    (hauth : authOk key secret = true)
    (habs : ∀ r ∈ store, r.slug ≠ slug) :
    store.countP (fun r => r.slug == slug) = 0
    ∧ handleUpdatePost key secret slug (some p) false store
        = (.err 404 "Post not found", store)
    ∧ (handleUpdatePost key secret slug (some p) true store).1 = .err 500 "Database error"
    ∧ (HResp.err 404 "Post not found") ≠ (HResp.err 500 "Database error") := by
  have hcnt : store.countP (fun r => r.slug == slug) = 0 := by
    rw [List.countP_eq_zero]
    intro r hr
    simp [beq_eq_false_iff_ne.mpr (habs r hr)]
  have hmap : store.map (updateRow p slug) = store := by
    rw [List.map_congr_left (fun r hr => ?_)]
    · exact List.map_id' store
    · simp [updateRow, beq_eq_false_iff_ne.mpr (habs r hr)]
  refine ⟨hcnt, ?_, ?_, by decide⟩
  · simp [handleUpdatePost, hauth, hcnt, hmap]
  · simp [handleUpdatePost, hauth]

/-- Witness for C6 on the empty store. -/
theorem update_absent_slug_notfound_witness :
    handleUpdatePost (some "k") (some "k") "z" (some ⟨"", "t", "d", "c", 0⟩) false []
      = (.err 404 "Post not found", []) :=
  (update_absent_slug_notfound (some "k") (some "k") "z" ⟨"", "t", "d", "c", 0⟩ []
    (by decide) (by simp)).2.1

/-- C7: a non-failing authorized update maps each row positionally: the
slug and published_at of every row are unchanged, rows with a different
slug are untouched, and a row with the matching slug gets exactly the
new title/description/content. -/
theorem update_frame (key secret : Option String) (slug : String) (p : Post)
    (store : List Post) (resp : HResp) (out : List Post)
    (hauth : authOk key secret = true)
    (hrun : handleUpdatePost key secret slug (some p) false store = (resp, out)) :
    out.length = store.length
    ∧ ∀ (i : Nat) (hi : i < store.length) (ho : i < out.length),
        out[i].slug = store[i].slug
        ∧ out[i].published_at = store[i].published_at
        ∧ (store[i].slug ≠ slug → out[i] = store[i])
        ∧ (store[i].slug = slug → out[i].title = p.title
            ∧ out[i].description = p.description ∧ out[i].content = p.content) := by
  have hout : out = store.map (updateRow p slug) := by
    have h2 := congrArg Prod.snd hrun
    simp [handleUpdatePost, hauth] at h2
    exact h2.symm
  subst hout
  refine ⟨List.length_map _ _, ?_⟩
  intro i hi ho
  simp only [List.getElem_map]
  by_cases hs : store[i].slug = slug
  · simp [updateRow, hs]
  · simp [updateRow, beq_eq_false_iff_ne.mpr hs, hs]

/-- Witness for C7: updating the only row keeps its timestamp 3. -/
theorem update_frame_witness :
    ([(⟨"s", "t2", "d2", "c2", 3⟩ : Post)]).length
        = ([(⟨"s", "t1", "d1", "c1", 3⟩ : Post)]).length
    ∧ ([(⟨"s", "t2", "d2", "c2", 3⟩ : Post)][0]).published_at
        = ([(⟨"s", "t1", "d1", "c1", 3⟩ : Post)][0]).published_at := by
  have h := update_frame (some "k") (some "k") "s" ⟨"s", "t2", "d2", "c2", 5⟩
    [⟨"s", "t1", "d1", "c1", 3⟩] (.okMsg [("status", "updated"), ("slug", "s")])
    [⟨"s", "t2", "d2", "c2", 3⟩] (by decide) (by decide)
  exact ⟨h.1, (h.2 0 (by decide) (by decide)).2.1⟩

/-- Auth success means none of the mutating handlers can answer 401. -/
theorem auth_pass_not_401 (key secret : Option String)
    (h : authOk key secret = true) (body : Option Post) (now : Int)
    (dbFail : Bool) (slug : String) (store : List Post) :
    (handlePublish key secret body now dbFail store).1 ≠ .err 401 "Go away"
    ∧ (handleDeletePost key secret slug dbFail store).1 ≠ .err 401 "Go away"
    ∧ (handleUpdatePost key secret slug body dbFail store).1 ≠ .err 401 "Go away" := by
  refine ⟨?_, ?_, ?_⟩
  · cases body with
    | none => simp [handlePublish, h]
    | some p => cases dbFail <;> simp [handlePublish, h]
  · cases dbFail
    · simp only [handleDeletePost, h, Bool.not_true, Bool.false_eq_true, if_false]
      split <;> simp
    · simp [handleDeletePost, h]
  · cases body with
    | none => simp [handleUpdatePost, h]
    | some p =>
      cases dbFail
      · simp only [handleUpdatePost, h, Bool.not_true, Bool.false_eq_true, if_false]
        split <;> simp
      · simp [handleUpdatePost, h]

/-- C10: with the secret unset or empty and the header absent or empty,
the comparison is "" == "" so authorization passes and every mutating
handler proceeds past the auth check (never answers 401). -/
theorem empty_secret_auth_passes (key secret : Option String)
    (hkey : key = none ∨ key = some "") (hsecret : secret = none ∨ secret = some "") :
    authOk key secret = true
    ∧ ∀ (body : Option Post) (now : Int) (dbFail : Bool) (slug : String)
        (store : List Post),
        (handlePublish key secret body now dbFail store).1 ≠ .err 401 "Go away"
        ∧ (handleDeletePost key secret slug dbFail store).1 ≠ .err 401 "Go away"
        ∧ (handleUpdatePost key secret slug body dbFail store).1 ≠ .err 401 "Go away" := by
  have hA : authOk key secret = true := by
    rcases hkey with rfl | rfl <;> rcases hsecret with rfl | rfl <;> rfl
  exact ⟨hA, fun body now dbFail slug store =>
    auth_pass_not_401 key secret hA body now dbFail slug store⟩

/-- Witness for C10: unset header and unset secret; a publish is
processed rather than rejected. -/
theorem empty_secret_auth_passes_witness :
    authOk none none = true
    ∧ (handlePublish none none (some ⟨"s", "t", "d", "c", 0⟩) 7 false []).1
        ≠ .err 401 "Go away" :=
  ⟨(empty_secret_auth_passes none none (Or.inl rfl) (Or.inl rfl)).1,
   ((empty_secret_auth_passes none none (Or.inl rfl) (Or.inl rfl)).2
      (some ⟨"s", "t", "d", "c", 0⟩) 7 false "x" []).1⟩

/-- C8: the listing is the stored rows sorted by published_at descending
with content elided (the Summary type has no content field), it is a
permutation of the summaries of the store, and publishing A then B then
C with distinct slugs and increasing timestamps lists [C, B, A]. -/
theorem list_sorted_desc (store : List Post) (A B C : Post)
    (hAB : A.slug ≠ B.slug) (hAC : A.slug ≠ C.slug) (hBC : B.slug ≠ C.slug)
    (hab : A.published_at < B.published_at) (hbc : B.published_at < C.published_at) :
    handleListPosts false store = .okList (listSummaries store)
    ∧ (listSummaries store).Pairwise (fun a b => b.published_at ≤ a.published_at)
    ∧ (listSummaries store).Perm (store.map summarize)
    ∧ handleListPosts false (upsert (upsert (upsert [] A) B) C)
        = .okList [summarize C, summarize B, summarize A] := by
  refine ⟨rfl, ?_, ?_, ?_⟩
  · exact (List.sorted_insertionSort publishedDesc store).map summarize (fun a b h => h)
  · exact (List.perm_insertionSort publishedDesc store).map summarize
  · have e1 : upsert [] A = [A] := rfl
    have e2 : upsert [A] B = [A, B] := by
      simp [upsert, beq_eq_false_iff_ne.mpr hAB]
    have e3 : upsert [A, B] C = [A, B, C] := by
      simp [upsert, beq_eq_false_iff_ne.mpr hAC, beq_eq_false_iff_ne.mpr hBC]
    have h1 : ¬ publishedDesc B C := not_le.mpr hbc
    have h2 : ¬ publishedDesc A C := not_le.mpr (lt_trans hab hbc)
    have h3 : ¬ publishedDesc A B := not_le.mpr hab
    rw [e1, e2, e3]
    simp [handleListPosts, listSummaries, List.insertionSort, List.orderedInsert, h1, h2, h3]

/-- Witness for C8 with three concrete posts at times 1 < 2 < 3. -/
theorem list_sorted_desc_witness :
    handleListPosts false
        (upsert (upsert (upsert [] ⟨"a", "", "", "", 1⟩) ⟨"b", "", "", "", 2⟩)
          ⟨"c", "", "", "", 3⟩)
      = .okList [summarize ⟨"c", "", "", "", 3⟩, summarize ⟨"b", "", "", "", 2⟩,
          summarize ⟨"a", "", "", "", 1⟩] :=
  (list_sorted_desc [] ⟨"a", "", "", "", 1⟩ ⟨"b", "", "", "", 2⟩ ⟨"c", "", "", "", 3⟩
    (by decide) (by decide) (by decide) (by decide) (by decide)).2.2.2

end SingleMalt
